import Mathlib

/-!
Shallow embedding of the Cost Attribution & Savings-Capping Engine of the
Costlyaudit repository (src/server/routes.ts and src/server/pricing-service.ts).

Strings are modelled at the character-list level; all inputs of interest are
ASCII, where JavaScript string operations (split, startsWith, includes,
substring after an index, toLowerCase, trim) agree with the char-level
definitions below.  Monetary amounts are integers of cents, as in the source
(the source rounds every savings value to an integer before the capping
stage).  The scaling step of the capping stage computes
Math.floor(v * (actualCost / total)) with IEEE doubles; it is embedded as the
exact rational floor v * actualCost / total (natural-number division).
-/

namespace Costlyaudit

/-- JavaScript s.split(c) on a list of characters: accumulator-based splitter. -/
def splitCharAux (c : Char) : List Char → List Char → List (List Char)
  | [], acc => [acc.reverse]
  | x :: xs, acc =>
    if x = c then acc.reverse :: splitCharAux c xs []
    else splitCharAux c xs (x :: acc)

/-- JavaScript s.split(c). -/
def splitChar (l : List Char) (c : Char) : List (List Char) :=
  splitCharAux c l []

/-- JavaScript parts.join(c). -/
def joinChar (c : Char) (ps : List (List Char)) : List Char :=
  List.intercalate [c] ps

/-- Everything after the first occurrence of c, i.e. the JavaScript idiom
s.substring(s.indexOf(c) + 1) for a string that contains c. -/
def afterChar (c : Char) : List Char → List Char
  | [] => []
  | x :: xs => if x = c then xs else afterChar c xs

/-- JavaScript s.includes(c) for a single character. -/
def containsChar (l : List Char) (c : Char) : Bool :=
  l.any (fun x => x == c)

/-- ASCII lower-casing of one character (what toLowerCase does on the
ASCII-only inputs that occur here). -/
def lowerChar (c : Char) : Char :=
  if 65 ≤ c.toNat ∧ c.toNat ≤ 90 then Char.ofNat (c.toNat + 32) else c

/-- JavaScript s.toLowerCase() on ASCII strings. -/
def toLowerStr (s : String) : String :=
  ⟨s.data.map lowerChar⟩

/-- Whitespace test used by trim. -/
def isWsChar (c : Char) : Bool :=
  c == ' ' || c == '\t' || c == '\n' || c == '\r'

/-- JavaScript s.trim(). -/
def trimStr (s : String) : String :=
  ⟨((s.data.dropWhile isWsChar).reverse.dropWhile isWsChar).reverse⟩

/-- JavaScript needle-in-haystack s.includes(sub). -/
def isSubstrOf (needle hay : String) : Bool :=
  hay.data.tails.any (fun t => needle.data.isPrefixOf t)

/-!  routes.ts, parseResourceIdFromArn (lines 36-77). -/

/-- parseResourceIdFromArn from routes.ts: if the input is not an ARN or has
fewer than 6 colon-separated parts it is returned unchanged; otherwise the
resource part is everything after the 5th colon, and the resource id is the
substring after the first slash, else after the first colon, else the
resource part itself. -/
def parseResourceIdFromArn (arn : String) : String :=
  if "arn:".data.isPrefixOf arn.data then
    if (splitChar arn.data ':').length < 6 then arn
    else
      if containsChar (joinChar ':' ((splitChar arn.data ':').drop 5)) '/' then
        ⟨afterChar '/' (joinChar ':' ((splitChar arn.data ':').drop 5))⟩
      else if containsChar (joinChar ':' ((splitChar arn.data ':').drop 5)) ':' then
        ⟨afterChar ':' (joinChar ':' ((splitChar arn.data ':').drop 5))⟩
      else ⟨joinChar ':' ((splitChar arn.data ':').drop 5)⟩
  else arn

/-!  routes.ts, getCostExplorerServiceFromArn (lines 82-121). -/

/-- The serviceMap object literal of getCostExplorerServiceFromArn; the
entries with value null (s3, dynamodb) are recorded as none. -/
def arnServiceMap : List (String × Option String) :=
  [ ("rds", some "Amazon Relational Database Service"),
    ("elasticache", some "Amazon ElastiCache"),
    ("redshift", some "Amazon Redshift"),
    ("lambda", some "AWS Lambda"),
    ("elasticloadbalancing", some "Amazon Elastic Load Balancing"),
    ("s3", none),
    ("dynamodb", none) ]

/-- serviceMap[service] followed by the trailing "|| null" coercion. -/
def serviceMapArn (service : List Char) : Option String :=
  match arnServiceMap.find? (fun p => p.1.data == service) with
  | some p => p.2
  | none => none

/-- The body of getCostExplorerServiceFromArn once the service segment and
the resource part are in hand: ec2 is disambiguated by the resource type,
everything else goes through serviceMapArn. -/
def ec2OrMap (service resourcePart : List Char) : Option String :=
  if service = "ec2".data then
    if "instance/".data.isPrefixOf resourcePart then
      some "Amazon Elastic Compute Cloud - Compute"
    else if "volume/".data.isPrefixOf resourcePart || "snapshot/".data.isPrefixOf resourcePart then
      some "EC2 - Other"
    else if "elastic-ip/".data.isPrefixOf resourcePart || "address/".data.isPrefixOf resourcePart then
      some "EC2 - Other"
    else
      some "Amazon Elastic Compute Cloud - Compute"
  else serviceMapArn service

/-- getCostExplorerServiceFromArn from routes.ts. -/
def getCostExplorerServiceFromArn (arn : String) : Option String :=
  if "arn:".data.isPrefixOf arn.data then
    if (splitChar arn.data ':').length < 6 then none
    else
      ec2OrMap ((splitChar arn.data ':').getD 2 [])
        (joinChar ':' ((splitChar arn.data ':').drop 5))
  else none

/-!  routes.ts, capping stage inside registerRoutes (lines 487-690). -/

/-- The serviceMapping object literal of the capping stage (routes.ts lines
504-547), keyed by lower-cased variants, valued by Cost Explorer SERVICE
dimension names. -/
def serviceMappingList : List (String × String) :=
  [ ("s3", "Amazon Simple Storage Service"),
    ("amazons3", "Amazon Simple Storage Service"),
    ("amazon simple storage service", "Amazon Simple Storage Service"),
    ("dynamodb", "Amazon DynamoDB"),
    ("amazondynamodb", "Amazon DynamoDB"),
    ("amazon dynamodb", "Amazon DynamoDB"),
    ("ec2", "Amazon Elastic Compute Cloud - Compute"),
    ("amazonec2", "Amazon Elastic Compute Cloud - Compute"),
    ("amazon elastic compute cloud", "Amazon Elastic Compute Cloud - Compute"),
    ("amazon elastic compute cloud - compute", "Amazon Elastic Compute Cloud - Compute"),
    ("ec2 - other", "EC2 - Other"),
    ("rds", "Amazon Relational Database Service"),
    ("amazonrds", "Amazon Relational Database Service"),
    ("amazon relational database service", "Amazon Relational Database Service"),
    ("elasticache", "Amazon ElastiCache"),
    ("amazonelasticache", "Amazon ElastiCache"),
    ("amazon elasticache", "Amazon ElastiCache"),
    ("redshift", "Amazon Redshift"),
    ("amazonredshift", "Amazon Redshift"),
    ("amazon redshift", "Amazon Redshift"),
    ("lambda", "AWS Lambda"),
    ("awslambda", "AWS Lambda"),
    ("amazon lambda", "AWS Lambda"),
    ("aws lambda", "AWS Lambda"),
    ("elb", "Elastic Load Balancing"),
    ("elasticloadbalancing", "Elastic Load Balancing"),
    ("elastic load balancing", "Elastic Load Balancing") ]

/-- serviceMapping[key] as an optional lookup. -/
def serviceMapping (key : String) : Option String :=
  (serviceMappingList.find? (fun p => p.1 == key)).map (fun p => p.2)

/-- normalizeServiceCode from the capping stage: lower-case and trim, map
through serviceMapping, fall back to the original code. -/
def normalizeServiceCode (code : String) : String :=
  match serviceMapping (trimStr (toLowerStr code)) with
  | some m => m
  | none => code

/-- The serviceLookup table of getServiceFromBenchmarkContext (routes.ts
lines 565-576). -/
def benchmarkServiceList : List (String × String) :=
  [ ("s3", "Amazon Simple Storage Service"),
    ("ec2", "Amazon Elastic Compute Cloud - Compute"),
    ("rds", "Amazon Relational Database Service"),
    ("dynamodb", "Amazon DynamoDB"),
    ("elasticache", "Amazon ElastiCache"),
    ("redshift", "Amazon Redshift"),
    ("lambda", "AWS Lambda") ]

/-- getServiceFromBenchmarkContext: serviceLookup[benchmarkId] || null. -/
def getServiceFromBenchmarkContext (benchmarkId : String) : Option String :=
  (benchmarkServiceList.find? (fun p => p.1 == benchmarkId)).map (fun p => p.2)

/-- The fallback chain that assigns a group key to one check during the
grouping pass of the capping stage: the check serviceCode when present,
else the normalized third ARN segment, else the benchmark context, else
the literal group key used for unresolvable checks. -/
def resolveServiceCode (checkCode : Option String)
    (resourceId benchmarkId : String) : String :=
  match checkCode with
  | some c => c
  | none =>
    if "arn:".data.isPrefixOf resourceId.data
        ∧ 3 ≤ (splitChar resourceId.data ':').length then
      normalizeServiceCode (toLowerStr ⟨(splitChar resourceId.data ':').getD 2 []⟩)
    else
      match getServiceFromBenchmarkContext benchmarkId with
      | some c => c
      | none => "Unknown Service"

/-- First-hit association lookup, the JavaScript serviceCostMap[code] access
on an object with distinct keys. -/
def lookupAssoc (m : List (String × Int)) (code : String) : Option Int :=
  (m.find? (fun p => p.1 == code)).map (fun p => p.2)

/-- The normalizedCostMap of the capping stage: every cost-map entry is
re-keyed by normalizeServiceCode, amounts of entries that collide are
accumulated; a key with no matching entry is absent. -/
def normalizedLookup (m : List (String × Int)) (nkey : String) : Option Int :=
  if (m.filter (fun p => normalizeServiceCode p.1 == nkey)).isEmpty then none
  else some ((m.filter (fun p => normalizeServiceCode p.1 == nkey)).map (fun p => p.2)).sum

/-- The two-step cost lookup of the capping loop: exact serviceCostMap hit
first, then the normalizedCostMap under the normalized key. -/
def lookupActualCost (m : List (String × Int)) (code : String) : Option Int :=
  match lookupAssoc m code with
  | some a => some a
  | none => normalizedLookup m (normalizeServiceCode code)

/-- Index of the first list element attaining the maximum, the result of the
JavaScript reduce((max, check) => check.estimatedSavings >
max.estimatedSavings ? check : max, checks[0]) over the scaled savings. -/
def firstMaxIdx : List Nat → Nat
  | [] => 0
  | v :: rest =>
    if rest.all (fun w => decide (w ≤ v)) then 0 else firstMaxIdx rest + 1

/-- Add r to the first list element attaining the maximum: the remainder
redistribution step largestCheck.estimatedSavings += remainder. -/
def addToFirstMax : List Nat → Nat → List Nat
  | [], _ => []
  | v :: rest, r =>
    if rest.all (fun w => decide (w ≤ v)) then (v + r) :: rest
    else v :: addToFirstMax rest r

/-- The floor-scaling pass: Math.floor(v * (actualCost / total)) for each
group member, as the exact rational floor. -/
def scaledSavings (actualCost total : Nat) (l : List Nat) : List Nat :=
  l.map (fun v => v * actualCost / total)

/-- One iteration of the capping loop on one savings group, given the looked
up cost (none when neither the exact nor the normalized lookup hits): missing
or non-positive cost zeroes the group, a raw total within the cost passes
through unchanged, and a raw total above the cost is floor-scaled with the
remainder added to the first largest scaled value. -/
def capGroup : Option Int → List Nat → List Nat
  | none, l => l.map (fun _ => 0)
  | some a, l =>
    if a ≤ 0 then l.map (fun _ => 0)
    else if a.toNat < l.sum then
      if 0 < a.toNat - (scaledSavings a.toNat l.sum l).sum then
        addToFirstMax (scaledSavings a.toNat l.sum l)
          (a.toNat - (scaledSavings a.toNat l.sum l).sum)
      else scaledSavings a.toNat l.sum l
    else l

/-- The capping loop body for the group keyed by code, cost map m. -/
def capServiceGroup (m : List (String × Int)) (code : String)
    (l : List Nat) : List Nat :=
  capGroup (lookupActualCost m code) l

/-!  pricing-service.ts, calculateSavingsForControlWithService (lines 64-130). -/

/-- The noResourceLevelServices array of calculateSavingsForControlWithService. -/
def noResourceLevelServices : List String :=
  [ "Amazon Simple Storage Service",
    "Amazon DynamoDB",
    "AmazonS3",
    "AmazonDynamoDB" ]

/-- The distribution factor as an exact fraction: 1/resourceCount when a
positive count is supplied (a zero or missing count is falsy in the source
guard), else the conservative 3% default. -/
def distributionFactor (resourceCount : Option Nat) : Nat × Nat :=
  match resourceCount with
  | some n => if 0 < n then (1, n) else (3, 100)
  | none => (3, 100)

/-- Math.round(c * (p / q)) for non-negative operands, as the exact
half-up rounding of c * p / q. -/
def roundTimesFrac (c p q : Nat) : Nat :=
  (2 * c * p + q) / (2 * q)

/-- The service-level fallback of the estimator: only for service codes
containing one of the no-resource-granularity names, only when the service
cost is known and positive; the monthly cost is the rounded share of the
service cost under the distribution factor. -/
def serviceFallback (serviceCode : String) (serviceCost : Option Int)
    (resourceCount : Option Nat) : Option Int :=
  if noResourceLevelServices.any (fun s => isSubstrOf s serviceCode) then
    match serviceCost with
    | some c =>
      if 0 < c then
        some ((roundTimesFrac c.toNat (distributionFactor resourceCount).1
          (distributionFactor resourceCount).2 : Nat) : Int)
      else none
    | none => none
  else none

/-- The monthly cost selected by calculateSavingsForControlWithService:
the resource-level monthly cost when present and non-zero, else the
service-level fallback. -/
def calcMonthly (serviceCode : String) (resourceMonthly : Option Int)
    (serviceCost : Option Int) (resourceCount : Option Nat) : Option Int :=
  match resourceMonthly with
  | some m => if m = 0 then serviceFallback serviceCode serviceCost resourceCount else some m
  | none => serviceFallback serviceCode serviceCost resourceCount

/-- The savings-percentage classification of the control name, as an exact
fraction: 0.6 for idle or low utilization, 0.3 for upgrade, graviton,
lifecycle or versioning, else 1.0. -/
def savingsPct (controlName : String) : Nat × Nat :=
  if isSubstrOf "low utilization" (toLowerStr controlName)
      || isSubstrOf "idle" (toLowerStr controlName) then (3, 5)
  else if isSubstrOf "upgrade" (toLowerStr controlName)
      || isSubstrOf "graviton" (toLowerStr controlName) then (3, 10)
  else if isSubstrOf "lifecycle" (toLowerStr controlName)
      || isSubstrOf "versioning" (toLowerStr controlName) then (3, 10)
  else (1, 1)

/-- Math.round(m * (p / q)) for a possibly negative m: floor of m * p / q
plus one half, with floor division. -/
def roundMulFracInt (m : Int) (p q : Nat) : Int :=
  Int.fdiv (2 * m * p + q) (2 * q)

/-- calculateSavingsForControlWithService as a pure decision function over
the outcomes of its two cost lookups: 0 when no monthly cost could be
established, else the monthly cost scaled by the classified percentage. -/
def calcSavings (controlName serviceCode : String) (resourceMonthly : Option Int)
    (serviceCost : Option Int) (resourceCount : Option Nat) : Int :=
  match calcMonthly serviceCode resourceMonthly serviceCost resourceCount with
  | none => 0
  | some m => roundMulFracInt m (savingsPct controlName).1 (savingsPct controlName).2

/-!  Arithmetic and list lemmas about the capping primitives. -/

lemma div_add_div_le (x y t : Nat) : x / t + y / t ≤ (x + y) / t := by
  rcases Nat.eq_zero_or_pos t with h | h
  · subst h; simp
  · rw [Nat.le_div_iff_mul_le h, Nat.add_mul]
    exact Nat.add_le_add (Nat.div_mul_le_self x t) (Nat.div_mul_le_self y t)

lemma scaledSavings_sum_le (a t : Nat) (l : List Nat) :
    (scaledSavings a t l).sum ≤ l.sum * a / t := by
  induction l with
  | nil => simp [scaledSavings]
  | cons v l ih =>
    simp only [scaledSavings, List.map_cons, List.sum_cons] at *
    calc v * a / t + (l.map (fun v => v * a / t)).sum
        ≤ v * a / t + l.sum * a / t := Nat.add_le_add_left ih _
      _ ≤ (v * a + l.sum * a) / t := div_add_div_le _ _ _
      _ = (v + l.sum) * a / t := by rw [Nat.add_mul]

lemma scaledSavings_sum_le_cap (a : Nat) (l : List Nat) (h : 0 < l.sum) :
    (scaledSavings a l.sum l).sum ≤ a :=
  le_trans (scaledSavings_sum_le a l.sum l) (le_of_eq (Nat.mul_div_cancel_left a h))

lemma addToFirstMax_zero (l : List Nat) : addToFirstMax l 0 = l := by
  induction l with
  | nil => rfl
  | cons v rest ih =>
    unfold addToFirstMax
    split
    · simp
    · simp [ih]

lemma addToFirstMax_sum (l : List Nat) (r : Nat) (h : l ≠ []) :
    (addToFirstMax l r).sum = l.sum + r := by
  induction l with
  | nil => exact absurd rfl h
  | cons v rest ih =>
    unfold addToFirstMax
    split
    · simp only [List.sum_cons]; omega
    · rename_i hall
      have hrest : rest ≠ [] := by
        intro he; subst he; simp at hall
      simp only [List.sum_cons, ih hrest]; omega

lemma addToFirstMax_get?_ne (l : List Nat) (r i : Nat) (h : i ≠ firstMaxIdx l) :
    (addToFirstMax l r).get? i = l.get? i := by
  induction l generalizing i with
  | nil => rfl
  | cons v rest ih =>
    by_cases hc : rest.all (fun w => decide (w ≤ v)) = true
    · unfold addToFirstMax
      unfold firstMaxIdx at h
      rw [if_pos hc]
      rw [if_pos hc] at h
      cases i with
      | zero => exact absurd rfl h
      | succ j => rfl
    · unfold addToFirstMax
      unfold firstMaxIdx at h
      rw [if_neg hc]
      rw [if_neg hc] at h
      cases i with
      | zero => rfl
      | succ j =>
        have hj : j ≠ firstMaxIdx rest := fun he => h (by rw [he])
        exact ih j hj

lemma zeros_sum (l : List Nat) : (l.map (fun _ => (0 : Nat))).sum = 0 := by
  induction l <;> simp [*]

lemma zeros_getD (l : List Nat) (i : Nat) :
    (l.map (fun _ => (0 : Nat))).getD i 0 = 0 := by
  rw [List.getD_eq_getD_get?, List.get?_map]
  cases l.get? i <;> rfl

lemma mem_zeros {l : List Nat} {v : Nat}
    (h : v ∈ l.map (fun _ => (0 : Nat))) : v = 0 := by
  rcases List.mem_map.1 h with ⟨x, _, he⟩
  exact he.symm

lemma filter_nz_sum (l : List Nat) :
    (l.filter (fun v => v != 0)).sum = l.sum := by
  induction l with
  | nil => rfl
  | cons v rest ih =>
    by_cases hv : v = 0
    · subst hv; simp [List.filter_cons, ih]
    · simp [List.filter_cons, hv, ih]

lemma zeros_filter (l : List Nat) :
    (l.map (fun _ => (0 : Nat))).filter (fun v => v != 0) = [] := by
  refine List.filter_eq_nil.2 (fun v hv => ?_)
  have := mem_zeros hv
  simp [this]

/-!  Branch lemmas for capGroup. -/

lemma capGroup_none_eq (l : List Nat) : capGroup none l = l.map (fun _ => 0) := rfl

lemma capGroup_some_eq (a : Int) (l : List Nat) :
    capGroup (some a) l
      = if a ≤ 0 then l.map (fun _ => 0)
        else if a.toNat < l.sum then
          if 0 < a.toNat - (scaledSavings a.toNat l.sum l).sum then
            addToFirstMax (scaledSavings a.toNat l.sum l)
              (a.toNat - (scaledSavings a.toNat l.sum l).sum)
          else scaledSavings a.toNat l.sum l
        else l := rfl

lemma capGroup_nonpos (a : Int) (l : List Nat) (h : a ≤ 0) :
    capGroup (some a) l = l.map (fun _ => 0) := by
  rw [capGroup_some_eq, if_pos h]

lemma capGroup_pass (a : Int) (l : List Nat) (h : ¬ a ≤ 0) (hle : l.sum ≤ a.toNat) :
    capGroup (some a) l = l := by
  rw [capGroup_some_eq, if_neg h, if_neg (Nat.not_lt.2 hle)]

lemma capGroup_over (a : Int) (l : List Nat) (h : ¬ a ≤ 0) (hlt : a.toNat < l.sum) :
    capGroup (some a) l
      = addToFirstMax (scaledSavings a.toNat l.sum l)
          (a.toNat - (scaledSavings a.toNat l.sum l).sum) := by
  rw [capGroup_some_eq, if_neg h, if_pos hlt]
  split
  · rfl
  · rename_i hr
    have h0 : a.toNat - (scaledSavings a.toNat l.sum l).sum = 0 :=
      Nat.eq_zero_of_not_pos hr
    rw [h0, addToFirstMax_zero]

lemma capGroup_sum_over (a : Int) (l : List Nat) (h0 : 0 < a) (hlt : a.toNat < l.sum) :
    (capGroup (some a) l).sum = a.toNat := by
  have hne : ¬ a ≤ 0 := not_le.2 h0
  rw [capGroup_over a l hne hlt]
  have hpos : 0 < l.sum := lt_of_le_of_lt (Nat.zero_le _) hlt
  have hsle : (scaledSavings a.toNat l.sum l).sum ≤ a.toNat :=
    scaledSavings_sum_le_cap _ _ hpos
  have hlne : l ≠ [] := by
    intro he; rw [he] at hpos; simp at hpos
  have hsne : scaledSavings a.toNat l.sum l ≠ [] := by
    intro he
    exact hlne (List.map_eq_nil.1 he)
  rw [addToFirstMax_sum _ _ hsne, Nat.add_sub_cancel' hsle]

lemma capGroup_sum_le (a : Int) (l : List Nat) :
    (capGroup (some a) l).sum ≤ a.toNat := by
  by_cases hle : a ≤ 0
  · rw [capGroup_nonpos _ _ hle, zeros_sum]; exact Nat.zero_le _
  · by_cases hlt : a.toNat < l.sum
    · exact le_of_eq (capGroup_sum_over a l (not_le.1 hle) hlt)
    · rw [capGroup_pass a l hle (Nat.not_lt.1 hlt)]; exact Nat.not_lt.1 hlt

lemma capGroup_sum_le_raw (c : Option Int) (l : List Nat) :
    (capGroup c l).sum ≤ l.sum := by
  cases c with
  | none => rw [capGroup_none_eq, zeros_sum]; exact Nat.zero_le _
  | some a =>
    by_cases hle : a ≤ 0
    · rw [capGroup_nonpos _ _ hle, zeros_sum]; exact Nat.zero_le _
    · by_cases hlt : a.toNat < l.sum
      · rw [capGroup_sum_over a l (not_le.1 hle) hlt]; exact le_of_lt hlt
      · rw [capGroup_pass a l hle (Nat.not_lt.1 hlt)]

lemma scaledSavings_getD_le (a t : Nat) (l : List Nat) (i : Nat)
    (hat : a ≤ t) (ht : 0 < t) :
    (scaledSavings a t l).getD i 0 ≤ l.getD i 0 := by
  unfold scaledSavings
  rw [List.getD_eq_getD_get?, List.getD_eq_getD_get?, List.get?_map]
  cases l.get? i with
  | none => simp
  | some v =>
    simp only [Option.map_some', Option.getD_some]
    calc v * a / t ≤ v * t / t :=
          Nat.div_le_div_right (Nat.mul_le_mul le_rfl hat)
      _ = v := Nat.mul_div_cancel v ht

lemma capGroup_getD_le_of_ne (c : Option Int) (l : List Nat) (i j : Nat)
    (hij : i ≠ j) :
    (capGroup c l).getD i 0 ≤ l.getD i 0 ∨ (capGroup c l).getD j 0 ≤ l.getD j 0 := by
  cases c with
  | none =>
    left; rw [capGroup_none_eq, zeros_getD]; exact Nat.zero_le _
  | some a =>
    by_cases hle : a ≤ 0
    · left; rw [capGroup_nonpos _ _ hle, zeros_getD]; exact Nat.zero_le _
    · by_cases hlt : a.toNat < l.sum
      · rw [capGroup_over a l hle hlt]
        have hpos : 0 < l.sum := lt_of_le_of_lt (Nat.zero_le _) hlt
        have key : ∀ n, n ≠ firstMaxIdx (scaledSavings a.toNat l.sum l) →
            (addToFirstMax (scaledSavings a.toNat l.sum l)
              (a.toNat - (scaledSavings a.toNat l.sum l).sum)).getD n 0 ≤ l.getD n 0 := by
          intro n hn
          rw [List.getD_eq_getD_get?, addToFirstMax_get?_ne _ _ n hn,
            ← List.getD_eq_getD_get?]
          exact scaledSavings_getD_le a.toNat l.sum l n (le_of_lt hlt) hpos
        by_cases hik : i = firstMaxIdx (scaledSavings a.toNat l.sum l)
        · right
          exact key j (fun hj => hij (hik.trans hj.symm))
        · left; exact key i hik
      · left; rw [capGroup_pass a l hle (Nat.not_lt.1 hlt)]

lemma capGroup_idem (c : Option Int) (l : List Nat) :
    capGroup c (capGroup c l) = capGroup c l := by
  cases c with
  | none =>
    rw [capGroup_none_eq l, capGroup_none_eq, List.map_map]
    rfl
  | some a =>
    by_cases hle : a ≤ 0
    · rw [capGroup_nonpos _ _ hle, capGroup_nonpos _ _ hle, List.map_map]
      rfl
    · by_cases hlt : a.toNat < l.sum
      · have hsum := capGroup_sum_over a l (not_le.1 hle) hlt
        exact capGroup_pass a _ hle (le_of_eq hsum)
      · have h := capGroup_pass a l hle (Nat.not_lt.1 hlt)
        rw [h]; exact h

lemma capGroup_idem_filter (c : Option Int) (l : List Nat) :
    capGroup c ((capGroup c l).filter (fun v => v != 0))
      = (capGroup c l).filter (fun v => v != 0) := by
  cases c with
  | none =>
    rw [capGroup_none_eq l, zeros_filter]
    rfl
  | some a =>
    by_cases hle : a ≤ 0
    · rw [capGroup_nonpos a l hle, zeros_filter]
      rw [capGroup_nonpos a [] hle]
      rfl
    · by_cases hlt : a.toNat < l.sum
      · have hsum := capGroup_sum_over a l (not_le.1 hle) hlt
        apply capGroup_pass a _ hle
        rw [filter_nz_sum, hsum]
      · rw [capGroup_pass a l hle (Nat.not_lt.1 hlt)]
        apply capGroup_pass a _ hle
        rw [filter_nz_sum]
        exact Nat.not_lt.1 hlt

/-!  Lemmas about the cost lookup and service-code normalization. -/

lemma lookupActualCost_eq_none (m : List (String × Int)) (code : String)
    (h1 : ∀ p ∈ m, p.1 ≠ code)
    (h2 : ∀ p ∈ m, normalizeServiceCode p.1 ≠ normalizeServiceCode code) :
    lookupActualCost m code = none := by
  unfold lookupActualCost lookupAssoc normalizedLookup
  have hf : m.find? (fun p => p.1 == code) = none :=
    List.find?_eq_none.2 (fun p hp => by simpa using h1 p hp)
  have hfil : m.filter (fun p => normalizeServiceCode p.1 == normalizeServiceCode code) = [] :=
    List.filter_eq_nil.2 (fun p hp => by simpa using h2 p hp)
  rw [hf, hfil]
  rfl

lemma serviceMapping_mem (s v : String) (h : serviceMapping s = some v) :
    ∃ q ∈ serviceMappingList, q.2 = v := by
  unfold serviceMapping at h
  rcases Option.map_eq_some'.1 h with ⟨p, hp, he⟩
  exact ⟨p, List.mem_of_find?_eq_some hp, he⟩

lemma normalize_eq_or_mem (s : String) :
    normalizeServiceCode s = s
      ∨ ∃ q ∈ serviceMappingList, normalizeServiceCode s = q.2 := by
  unfold normalizeServiceCode
  rcases h : serviceMapping (trimStr (toLowerStr s)) with _ | v
  · exact Or.inl rfl
  · rcases serviceMapping_mem _ _ h with ⟨q, hq, he⟩
    exact Or.inr ⟨q, hq, he.symm⟩

lemma normalize_ne_unknown (s : String) (h : s ≠ "Unknown Service") :
    normalizeServiceCode s ≠ "Unknown Service" := by
  rcases normalize_eq_or_mem s with he | ⟨q, hq, he⟩
  · rw [he]; exact h
  · rw [he]
    have hall : ∀ q ∈ serviceMappingList, q.2 ≠ "Unknown Service" := by decide
    exact hall q hq

lemma normalize_ne_aelb (s : String) (h : s ≠ "Amazon Elastic Load Balancing") :
    normalizeServiceCode s ≠ "Amazon Elastic Load Balancing" := by
  rcases normalize_eq_or_mem s with he | ⟨q, hq, he⟩
  · rw [he]; exact h
  · rw [he]
    have hall : ∀ q ∈ serviceMappingList,
        q.2 ≠ "Amazon Elastic Load Balancing" := by decide
    exact hall q hq

/-!  Claim theorems. -/

/-- C1: for every service code whose group the capping stage matches to a
cost-map entry with non-negative billed cost a, the capped savings of the
group sum to at most a. -/
theorem savings_cap_respects_billed_total
    (m : List (String × Int)) (code : String) (l : List Nat) (a : Int)
    (hl : lookupActualCost m code = some a) (ha : 0 ≤ a) :
    ((capServiceGroup m code l).sum : Int) ≤ a := by
  unfold capServiceGroup
  rw [hl]
  have h := capGroup_sum_le a l
  calc ((capGroup (some a) l).sum : Int) ≤ (a.toNat : Int) := by exact_mod_cast h
    _ = a := Int.toNat_of_nonneg ha

/-- Witness for C1 at the cost map with a single DynamoDB entry of 10 cents
and the raw group 7, 5, 3. -/
theorem savings_cap_respects_billed_total_witness :
    ((capServiceGroup [("Amazon DynamoDB", (10 : Int))] "Amazon DynamoDB"
        [7, 5, 3]).sum : Int) ≤ 10 :=
  savings_cap_respects_billed_total _ _ _ _ (by decide) (by decide)

/-- C2 counterexample: on the raw group 2, 1, 1 billed at 3 cents the first
finding is capped to 3, strictly above its raw savings 2, because the whole
rounding remainder of 2 cents lands on it. -/
theorem capped_le_raw_counterexample :
    capServiceGroup [("EC2 - Other", (3 : Int))] "EC2 - Other" [2, 1, 1] = [3, 0, 0]
      ∧ ¬ ((capServiceGroup [("EC2 - Other", (3 : Int))] "EC2 - Other"
            [2, 1, 1]).getD 0 0 ≤ List.getD [2, 1, 1] 0 0) := by
  constructor <;> decide

/-- C2 (amended): after the capping stage each finding's capped savings is at
most its raw savings for all findings except possibly the single remainder
recipient of its group (for any two distinct positions, at least one obeys
the bound), and the group's capped total never exceeds the raw total. -/
theorem capped_le_raw_except_remainder
    (m : List (String × Int)) (code : String) (l : List Nat) (i j : Nat)
    (hij : i ≠ j) :
    (capServiceGroup m code l).sum ≤ l.sum
      ∧ ((capServiceGroup m code l).getD i 0 ≤ l.getD i 0
          ∨ (capServiceGroup m code l).getD j 0 ≤ l.getD j 0) := by
  unfold capServiceGroup
  exact ⟨capGroup_sum_le_raw _ l, capGroup_getD_le_of_ne _ l i j hij⟩

/-- Witness for the amended C2 at positions 0 and 1 of the group 2, 1, 1
billed at 3 cents. -/
theorem capped_le_raw_except_remainder_witness :
    (capServiceGroup [("EC2 - Other", (3 : Int))] "EC2 - Other" [2, 1, 1]).sum
        ≤ List.sum [2, 1, 1]
      ∧ ((capServiceGroup [("EC2 - Other", (3 : Int))] "EC2 - Other"
            [2, 1, 1]).getD 0 0 ≤ List.getD [2, 1, 1] 0 0
          ∨ (capServiceGroup [("EC2 - Other", (3 : Int))] "EC2 - Other"
              [2, 1, 1]).getD 1 0 ≤ List.getD [2, 1, 1] 1 0) :=
  capped_le_raw_except_remainder _ _ _ 0 1 (by decide)

/-- C3 counterexample: raw 7, 5, 3 billed at 10 cents is capped to 5, 3, 2,
not to the 6, 3, 1 stated by the claim: the exact scaling factor 10/15 sends
3 to exactly 2 (the double 3 * (10 / 15) is exactly 2.0 as well), so the
floors are 4, 3, 2 and the remainder is 1, added to the first maximum 4. -/
theorem remainder_redistribution_counterexample :
    capServiceGroup [("Amazon Redshift", (10 : Int))] "Amazon Redshift" [7, 5, 3]
        = [5, 3, 2]
      ∧ capServiceGroup [("Amazon Redshift", (10 : Int))] "Amazon Redshift" [7, 5, 3]
        ≠ [6, 3, 1] := by
  constructor <;> decide

/-- C3 (amended): in the over-estimate case each finding is floor-scaled by
actualBilledCents / rawSum and the whole remainder is added to the first
finding with maximal scaled value, making the group sum exactly equal to the
billed cost; raw 7, 5, 3 with billed cost 10 becomes 5, 3, 2 (floors 4, 3, 2,
remainder 1 to the first maximum). -/
theorem overestimate_scaling_and_redistribution :
    (∀ (m : List (String × Int)) (code : String) (l : List Nat) (a : Int),
        lookupActualCost m code = some a → 0 < a → a.toNat < l.sum →
        capServiceGroup m code l
            = addToFirstMax (scaledSavings a.toNat l.sum l)
                (a.toNat - (scaledSavings a.toNat l.sum l).sum)
          ∧ (capServiceGroup m code l).sum = a.toNat)
      ∧ capServiceGroup [("Amazon Redshift", (10 : Int))] "Amazon Redshift" [7, 5, 3]
          = [5, 3, 2] := by
  constructor
  · intro m code l a hl ha hlt
    unfold capServiceGroup
    rw [hl]
    exact ⟨capGroup_over a l (not_le.2 ha) hlt, capGroup_sum_over a l ha hlt⟩
  · decide

/-- Witness for the amended C3 at the Redshift group 7, 5, 3 billed at 10. -/
theorem overestimate_scaling_and_redistribution_witness :
    capServiceGroup [("Amazon Redshift", (10 : Int))] "Amazon Redshift" [7, 5, 3]
        = addToFirstMax (scaledSavings (10 : Int).toNat (List.sum [7, 5, 3]) [7, 5, 3])
            ((10 : Int).toNat
              - (scaledSavings (10 : Int).toNat (List.sum [7, 5, 3]) [7, 5, 3]).sum)
      ∧ (capServiceGroup [("Amazon Redshift", (10 : Int))] "Amazon Redshift"
          [7, 5, 3]).sum = (10 : Int).toNat :=
  overestimate_scaling_and_redistribution.1 _ _ _ _ (by decide) (by decide) (by decide)

/-- C4 counterexample: a group whose raw sum equals the billed cost exactly
(5, 5 billed at 10) passes through unchanged, yet its capped sum equals the
billed cost although the raw sum did not strictly exceed it. -/
theorem equality_only_under_excess_counterexample :
    (capServiceGroup [("AWS Lambda", (10 : Int))] "AWS Lambda" [5, 5]).sum = 10
      ∧ ¬ (10 < List.sum [5, 5])
      ∧ capServiceGroup [("AWS Lambda", (10 : Int))] "AWS Lambda" [5, 5] = [5, 5] := by
  refine ⟨by decide, by decide, by decide⟩

/-- C4 (amended): for a positive billed cost, the capped sum equals the
billed cost exactly when the raw sum reaches it (at or above); whenever the
raw sum is at most the billed cost the raw values pass through unchanged. -/
theorem equality_iff_raw_reaches_cost
    (m : List (String × Int)) (code : String) (l : List Nat) (a : Int)
    (hl : lookupActualCost m code = some a) (ha : 0 < a) :
    (((capServiceGroup m code l).sum : Int) = a ↔ a ≤ (l.sum : Int))
      ∧ ((l.sum : Int) ≤ a → capServiceGroup m code l = l) := by
  unfold capServiceGroup
  rw [hl]
  have hne : ¬ a ≤ 0 := not_le.2 ha
  constructor
  · constructor
    · intro he
      by_contra hgt
      push_neg at hgt
      have hpass : capGroup (some a) l = l := capGroup_pass a l hne (by omega)
      rw [hpass] at he
      omega
    · intro hge
      by_cases hlt : a.toNat < l.sum
      · rw [capGroup_sum_over a l ha hlt]
        omega
      · have hpass := capGroup_pass a l hne (Nat.not_lt.1 hlt)
        rw [hpass]
        have := Nat.not_lt.1 hlt
        omega
  · intro hle
    exact capGroup_pass a l hne (by omega)

/-- Witness for the amended C4 at the Lambda group 5, 5 billed at 10. -/
theorem equality_iff_raw_reaches_cost_witness :
    (((capServiceGroup [("AWS Lambda", (10 : Int))] "AWS Lambda" [5, 5]).sum : Int)
        = 10 ↔ (10 : Int) ≤ (List.sum [5, 5] : Nat))
      ∧ ((List.sum [5, 5] : Nat) ≤ (10 : Int) →
          capServiceGroup [("AWS Lambda", (10 : Int))] "AWS Lambda" [5, 5] = [5, 5]) :=
  equality_iff_raw_reaches_cost _ _ _ _ (by decide) (by decide)

/-- C5: a finding group with unresolved service code (group key falling back
to the literal used for unresolvable checks, absent from the cost map), or
whose code misses both the exact and the normalized cost lookup, or whose
looked-up billed cost is non-positive, is capped to zero savings. -/
theorem unresolved_or_costless_group_zeroed :
    (∀ (rid bid : String),
        ¬ ("arn:".data.isPrefixOf rid.data = true) →
        getServiceFromBenchmarkContext bid = none →
        resolveServiceCode none rid bid = "Unknown Service")
      ∧ (∀ (m : List (String × Int)) (l : List Nat),
          (∀ p ∈ m, p.1 ≠ "Unknown Service") →
          ∀ v ∈ capServiceGroup m "Unknown Service" l, v = 0)
      ∧ (∀ (m : List (String × Int)) (code : String) (l : List Nat),
          lookupActualCost m code = none →
          ∀ v ∈ capServiceGroup m code l, v = 0)
      ∧ (∀ (m : List (String × Int)) (code : String) (l : List Nat) (a : Int),
          lookupActualCost m code = some a → a ≤ 0 →
          ∀ v ∈ capServiceGroup m code l, v = 0) := by
  refine ⟨?_, ?_, ?_, ?_⟩
  · intro rid bid h1 h2
    unfold resolveServiceCode
    have hcond : ¬ ("arn:".data.isPrefixOf rid.data = true
        ∧ 3 ≤ (splitChar rid.data ':').length) := fun hc => h1 hc.1
    rw [if_neg hcond, h2]
  · intro m l hm v hv
    have hn : lookupActualCost m "Unknown Service" = none := by
      apply lookupActualCost_eq_none
      · exact hm
      · intro p hp
        have h2 : normalizeServiceCode "Unknown Service" = "Unknown Service" := by decide
        rw [h2]
        exact normalize_ne_unknown p.1 (hm p hp)
    unfold capServiceGroup at hv
    rw [hn, capGroup_none_eq] at hv
    exact mem_zeros hv
  · intro m code l hn v hv
    unfold capServiceGroup at hv
    rw [hn, capGroup_none_eq] at hv
    exact mem_zeros hv
  · intro m code l a hl hle v hv
    unfold capServiceGroup at hv
    rw [hl, capGroup_nonpos a l hle] at hv
    exact mem_zeros hv

/-- Witness for C5 at an ElastiCache group with zero billed cost. -/
theorem unresolved_or_costless_group_zeroed_witness :
    (capServiceGroup [("Amazon ElastiCache", (0 : Int))] "Amazon ElastiCache"
        [9, 4]).getD 0 0 = 0 :=
  unresolved_or_costless_group_zeroed.2.2.2
    [("Amazon ElastiCache", (0 : Int))] "Amazon ElastiCache" [9, 4] 0
    (by decide) (by decide) _ (by decide)

/-- C6: the capping stage is idempotent: re-running a group against the same
cost map on its already-capped values (both when the second grouping pass
drops the zeroed findings, as the stage does, and on the full list) changes
nothing. -/
theorem capping_stage_idempotent
    (m : List (String × Int)) (code : String) (l : List Nat) :
    capServiceGroup m code ((capServiceGroup m code l).filter (fun v => v != 0))
        = (capServiceGroup m code l).filter (fun v => v != 0)
      ∧ capServiceGroup m code (capServiceGroup m code l) = capServiceGroup m code l := by
  unfold capServiceGroup
  exact ⟨capGroup_idem_filter _ l, capGroup_idem _ l⟩

/-- C7: the resolver returns non-hierarchical or malformed references
unchanged with no service code; otherwise the resource id is derived from
the descriptor after the 5th colon by the first-slash, first-colon,
verbatim rule; the three claimed instances evaluate as stated. -/
theorem resource_identifier_resolver_contract :
    (∀ s : String, ¬ ("arn:".data.isPrefixOf s.data = true) →
        parseResourceIdFromArn s = s ∧ getCostExplorerServiceFromArn s = none)
      ∧ (∀ s : String, (splitChar s.data ':').length < 6 →
          parseResourceIdFromArn s = s ∧ getCostExplorerServiceFromArn s = none)
      ∧ (∀ s : String, "arn:".data.isPrefixOf s.data = true →
          6 ≤ (splitChar s.data ':').length →
          parseResourceIdFromArn s
            = (if containsChar (joinChar ':' ((splitChar s.data ':').drop 5)) '/' then
                ⟨afterChar '/' (joinChar ':' ((splitChar s.data ':').drop 5))⟩
              else if containsChar (joinChar ':' ((splitChar s.data ':').drop 5)) ':' then
                ⟨afterChar ':' (joinChar ':' ((splitChar s.data ':').drop 5))⟩
              else ⟨joinChar ':' ((splitChar s.data ':').drop 5)⟩))
      ∧ parseResourceIdFromArn "arn:aws:ec2:us-east-1:123:instance/i-abc" = "i-abc"
      ∧ getCostExplorerServiceFromArn "arn:aws:ec2:us-east-1:123:instance/i-abc"
          = some "Amazon Elastic Compute Cloud - Compute"
      ∧ parseResourceIdFromArn "arn:aws:ec2:us-east-1:123:volume/vol-xyz" = "vol-xyz"
      ∧ getCostExplorerServiceFromArn "arn:aws:ec2:us-east-1:123:volume/vol-xyz"
          = some "EC2 - Other"
      ∧ parseResourceIdFromArn "arn:aws:rds:us-east-1:123:snapshot:rds:mydb-snap"
          = "rds:mydb-snap" := by
  refine ⟨?_, ?_, ?_, by decide, by decide, by decide, by decide, by decide⟩
  · intro s h
    unfold parseResourceIdFromArn getCostExplorerServiceFromArn
    rw [if_neg h, if_neg h]
    exact ⟨rfl, rfl⟩
  · intro s h
    unfold parseResourceIdFromArn getCostExplorerServiceFromArn
    by_cases hp : "arn:".data.isPrefixOf s.data = true
    · rw [if_pos hp, if_pos hp, if_pos h, if_pos h]
      exact ⟨rfl, rfl⟩
    · rw [if_neg hp, if_neg hp]
      exact ⟨rfl, rfl⟩
  · intro s hp h6
    unfold parseResourceIdFromArn
    rw [if_pos hp, if_neg (Nat.not_lt.2 h6)]

/-- Witness for C7 at a bare resource id and at a short hierarchical
reference. -/
theorem resource_identifier_resolver_contract_witness :
    (parseResourceIdFromArn "my-bucket" = "my-bucket"
        ∧ getCostExplorerServiceFromArn "my-bucket" = none)
      ∧ (parseResourceIdFromArn "arn:aws:s3" = "arn:aws:s3"
          ∧ getCostExplorerServiceFromArn "arn:aws:s3" = none) :=
  ⟨resource_identifier_resolver_contract.1 "my-bucket" (by decide),
    resource_identifier_resolver_contract.2.1 "arn:aws:s3" (by decide)⟩

/-- C8: on a no-resource-granularity service with missing or zero
resource-level cost and positive service cost c, the estimator's monthly
cost is round(c * 1/n) for a supplied positive resource count n and
round(c * 3/100) otherwise; 12000 cents with count 4 gives 3000, and with
no count gives 360. -/
theorem fallback_distribution_monthly_cost :
    (∀ (code : String) (rm sc : Option Int) (c : Int) (n : Nat),
        noResourceLevelServices.any (fun s => isSubstrOf s code) = true →
        (rm = none ∨ rm = some 0) →
        sc = some c → 0 < c → 0 < n →
        calcMonthly code rm sc (some n) = some ((roundTimesFrac c.toNat 1 n : Nat) : Int)
          ∧ calcMonthly code rm sc none = some ((roundTimesFrac c.toNat 3 100 : Nat) : Int))
      ∧ calcMonthly "Amazon Simple Storage Service" none (some 12000) (some 4) = some 3000
      ∧ calcMonthly "Amazon Simple Storage Service" none (some 12000) none = some 360 := by
  refine ⟨?_, by decide, by decide⟩
  intro code rm sc c n hsvc hrm hsc hc hn
  subst hsc
  rcases hrm with hrm | hrm <;> subst hrm <;>
    constructor <;>
      simp [calcMonthly, serviceFallback, hsvc, hc, distributionFactor, hn]

/-- Witness for C8 at the S3 service cost of 12000 cents. -/
theorem fallback_distribution_monthly_cost_witness :
    calcMonthly "Amazon Simple Storage Service" none (some 12000) (some 4)
        = some ((roundTimesFrac (12000 : Int).toNat 1 4 : Nat) : Int)
      ∧ calcMonthly "Amazon Simple Storage Service" none (some 12000) none
        = some ((roundTimesFrac (12000 : Int).toNat 3 100 : Nat) : Int) :=
  fallback_distribution_monthly_cost.1 "Amazon Simple Storage Service" none
    (some 12000) 12000 4 (by decide) (Or.inl rfl) rfl (by decide) (by decide)

/-- C9: an elasticloadbalancing ARN resolves to the service code with the
Amazon prefix, which the capping normalization maps to itself; so against a
cost map keyed by the prefix-less Cost Explorer name both lookups miss and
the whole load-balancer group is capped to zero. -/
theorem elb_service_name_mismatch_zeroes_savings :
    (∀ s : String, "arn:".data.isPrefixOf s.data = true →
        6 ≤ (splitChar s.data ':').length →
        (splitChar s.data ':').getD 2 [] = "elasticloadbalancing".data →
        getCostExplorerServiceFromArn s = some "Amazon Elastic Load Balancing")
      ∧ normalizeServiceCode "Amazon Elastic Load Balancing"
          = "Amazon Elastic Load Balancing"
      ∧ (∀ (m : List (String × Int)) (l : List Nat) (b : Int),
          ("Elastic Load Balancing", b) ∈ m →
          (∀ p ∈ m, p.1 ≠ "Amazon Elastic Load Balancing") →
          ∀ v ∈ capServiceGroup m "Amazon Elastic Load Balancing" l, v = 0) := by
  refine ⟨?_, by decide, ?_⟩
  · intro s h1 h2 h3
    unfold getCostExplorerServiceFromArn
    rw [if_pos h1, if_neg (Nat.not_lt.2 h2), h3]
    unfold ec2OrMap
    rw [if_neg (by decide)]
    decide
  · intro m l b _hb hm v hv
    have hn : lookupActualCost m "Amazon Elastic Load Balancing" = none := by
      apply lookupActualCost_eq_none
      · exact hm
      · intro p hp
        have h2 : normalizeServiceCode "Amazon Elastic Load Balancing"
            = "Amazon Elastic Load Balancing" := by decide
        rw [h2]
        exact normalize_ne_aelb p.1 (hm p hp)
    unfold capServiceGroup at hv
    rw [hn, capGroup_none_eq] at hv
    exact mem_zeros hv

/-- Witness for C9 at a concrete load-balancer ARN and a one-entry cost map
keyed Elastic Load Balancing. -/
theorem elb_service_name_mismatch_zeroes_savings_witness :
    getCostExplorerServiceFromArn
        "arn:aws:elasticloadbalancing:us-east-1:123:loadbalancer/app/my-lb/1"
        = some "Amazon Elastic Load Balancing"
      ∧ (capServiceGroup [("Elastic Load Balancing", (5000 : Int))]
          "Amazon Elastic Load Balancing" [700]).getD 0 0 = 0 :=
  ⟨elb_service_name_mismatch_zeroes_savings.1 _ (by decide) (by decide) (by decide),
    elb_service_name_mismatch_zeroes_savings.2.2
      [("Elastic Load Balancing", (5000 : Int))] [700] 5000
      (by decide) (by decide) _ (by decide)⟩

/-- C10: a resource count of zero is treated exactly like an absent resource
count: the distribution-factor guard rejects it and the 3 percent default is
used, so no division by zero can occur and the estimate coincides with the
count-less one. -/
theorem zero_resource_count_safe
    (controlName code : String) (rm sc : Option Int) :
    calcSavings controlName code rm sc (some 0) = calcSavings controlName code rm sc none
      ∧ calcMonthly code rm sc (some 0) = calcMonthly code rm sc none
      ∧ distributionFactor (some 0) = distributionFactor none := by
  have hd : distributionFactor (some 0) = distributionFactor none := by decide
  have hf : serviceFallback code sc (some 0) = serviceFallback code sc none := by
    unfold serviceFallback
    rw [hd]
  have hmo : calcMonthly code rm sc (some 0) = calcMonthly code rm sc none := by
    cases rm with
    | none => simp [calcMonthly, hf]
    | some mv => by_cases hm : mv = 0 <;> simp [calcMonthly, hf, hm]
  refine ⟨?_, hmo, hd⟩
  unfold calcSavings
  rw [hmo]

end Costlyaudit
